import Mathlib

/-!
Shallow embedding of the Promo-calendar backend (`src/backend/server.js`,
`src/backend/models/Announcement.js`, `src/unnamed/part_000`,
`src/unnamed/part_001`) and proofs about its visibility, cache and
lifecycle logic.

Conventions of the embedding:
- instants are `Int` milliseconds since the epoch; `new Date()` at request
  time is a parameter `now`; `setHours(0,0,0,0)` is truncation to the start
  of the day (`midnight`);
- the Mongo collections are `List` values threaded through the handlers;
  `findByIdAndUpdate` is a map over the list that merges the update document
  into the matching record (Mongoose runs no validators on this path);
- the Redis client is a `CacheState`: `isOpen` mirrors `redisClient.isOpen`,
  `failing` models a client whose calls reject at call time, `entry` is the
  content of the single promotions cache key together with its TTL;
- handlers return `Except String α`: `Except.error` is the 4xx/5xx response
  produced by a handler's catch block, `Except.ok` the success response.
-/

namespace PromoCalendar

/-- Milliseconds in one day, used by `midnight`. -/
def msPerDay : Int := 86400000

/-- Truncation of an instant to the start of its day: the effect of
`today.setHours(0,0,0,0)` on a `Date`. -/
def midnight (t : Int) : Int := msPerDay * (t.ediv msPerDay)

/-- A Promotion document (schema in `src/unnamed/part_000`): `title`,
`description`, `imageUrl`, `color`, `start`, `end`, a `status` string and
`createdAt`. -/
structure Promotion where
  id : Nat
  title : String
  description : String
  imageUrl : String
  color : String
  start : Int
  «end» : Int
  status : String
  createdAt : Int
deriving Repr, DecidableEq

/-- The filter of the public listing query
`Promotion.find({ status: 'APPROVED', end: { $gte: today } })` where `today`
has been truncated by `setHours(0,0,0,0)`. -/
def promoVisible (now : Int) (p : Promotion) : Bool :=
  p.status == "APPROVED" && decide (midnight now ≤ p.«end»)

/-- The set the public listing recomputes on a cache miss. -/
def visiblePromotions (now : Int) (db : List Promotion) : List Promotion :=
  db.filter (promoVisible now)

/-- State of the Redis client plus the content of the single promotions
cache key (`'promotions:active'` / `'promotions:approved'`). `failing`
models a client that reports open but whose calls reject. The stored value
is kept as the list it serializes (serialization is injective on records). -/
structure CacheState where
  isOpen : Bool
  failing : Bool
  entry : Option (List Promotion × Nat)
deriving Repr, DecidableEq

/-- `GET /api/promotions`: try the cache when the client is open (a hit is
returned verbatim), otherwise query the store, populate the key with TTL
300 and return the result. A rejected cache call is caught by the handler's
try/catch and becomes a 500 (`Except.error`). -/
def getPromotions (now : Int) (db : List Promotion) (c : CacheState) :
    Except String (List Promotion) × CacheState :=
  if c.isOpen then
    if c.failing then (Except.error "cache error", c)
    else
      match c.entry with
      | some (cached, _) => (Except.ok cached, c)
      | none =>
          let promotions := visiblePromotions now db
          (Except.ok promotions, { c with entry := some (promotions, 300) })
  else
    (Except.ok (visiblePromotions now db), c)

/-- `if (redisClient.isOpen) await redisClient.del(key)`: a no-op on a
closed client, deletes the key on an open one, rejects on a failing one. -/
def cacheDel (c : CacheState) : Except String CacheState :=
  if c.isOpen then
    if c.failing then Except.error "cache error"
    else Except.ok { c with entry := none }
  else Except.ok c

/-- The image-upload context of one request: whether a multipart `image`
file is present (`req.file`), whether the ImgBB round trip succeeds, and
the URL it returns when it does. -/
structure UploadCtx where
  hasFile : Bool
  uploadOk : Bool
  url : String
deriving Repr, DecidableEq

/-- `let imageUrl = ''; if (req.file) imageUrl = await uploadToImgBB(...)`:
no file yields the empty string, a failed upload throws
`'Image upload failed'`. -/
def resolveImage (u : UploadCtx) : Except String String :=
  if u.hasFile then
    if u.uploadOk then Except.ok u.url else Except.error "Image upload failed"
  else Except.ok ""

/-- Same as `resolveImage` but for the edit handlers, where `imageUrl` is
set on the update document only when a file is present. -/
def resolveImageOpt (u : UploadCtx) : Except String (Option String) :=
  if u.hasFile then
    if u.uploadOk then Except.ok (some u.url) else Except.error "Image upload failed"
  else Except.ok none

/-- The promotion fields a request body may carry for the create and edit
endpoints; `none` is an absent (`undefined`) field, which Mongoose drops
from update documents. -/
structure PromoBody where
  title : Option String
  description : Option String
  start : Option Int
  «end» : Option Int
  color : Option String
deriving Repr, DecidableEq

/-- The status enum of `PromotionSchema`:
`enum: ['PENDING', 'APPROVED', 'REJECTED']`. -/
def validStatus (s : String) : Bool :=
  s == "PENDING" || s == "APPROVED" || s == "REJECTED"

/-- `new Promotion({...}); await newPromo.save()`: document construction
followed by Mongoose validation on the save path (required `title`,
`start`, `end`; the status enum). -/
def buildAndSave (fresh : Nat) (now : Int) (b : PromoBody)
    (imageUrl color status : String) : Except String Promotion :=
  match b.title, b.start, b.«end» with
  | some t, some st, some en =>
      if t == "" then Except.error "Promotion validation failed: title"
      else if validStatus status then
        Except.ok { id := fresh, title := t, description := b.description.getD "",
                    imageUrl := imageUrl, color := color, start := st, «end» := en,
                    status := status, createdAt := now }
      else Except.error "Promotion validation failed: status"
  | _, _, _ => Except.error "Promotion validation failed"

/-- `POST /api/promotions` (public submission): upload the image if any,
save a document that takes the default status `PENDING`; 201 on success,
400 on failure, and no cache interaction. -/
def postPromotion (u : UploadCtx) (b : PromoBody) (fresh : Nat) (now : Int)
    (db : List Promotion) : Except String String × List Promotion :=
  match resolveImage u with
  | Except.error e => (Except.error e, db)
  | Except.ok url =>
      match buildAndSave fresh now b url "" "PENDING" with
      | Except.error e => (Except.error e, db)
      | Except.ok p => (Except.ok "Submission Received", db ++ [p])

/-- `POST /api/admin/promotions`: upload, save with `status: 'APPROVED'`
and `color: req.body.color || '#4F46E5'`, then delete the cache key. -/
def postAdminPromotion (u : UploadCtx) (b : PromoBody) (fresh : Nat) (now : Int)
    (db : List Promotion) (c : CacheState) :
    Except String String × List Promotion × CacheState :=
  match resolveImage u with
  | Except.error e => (Except.error e, db, c)
  | Except.ok url =>
      match buildAndSave fresh now b url (b.color.getD "#4F46E5") "APPROVED" with
      | Except.error e => (Except.error e, db, c)
      | Except.ok p =>
          match cacheDel c with
          | Except.error e => (Except.error e, db ++ [p], c)
          | Except.ok c2 => (Except.ok "Created successfully", db ++ [p], c2)

/-- An update document for `findByIdAndUpdate`: `none` fields are absent
and leave the stored field unchanged. -/
structure UpdateDoc where
  title : Option String
  description : Option String
  start : Option Int
  «end» : Option Int
  color : Option String
  imageUrl : Option String
  status : Option String
  createdAt : Option Int
deriving Repr, DecidableEq

/-- Merge an update document into a stored record (no validators run). -/
def applyUpdate (d : UpdateDoc) (p : Promotion) : Promotion :=
  { id := p.id, title := d.title.getD p.title,
    description := d.description.getD p.description,
    imageUrl := d.imageUrl.getD p.imageUrl, color := d.color.getD p.color,
    start := d.start.getD p.start, «end» := d.«end».getD p.«end»,
    status := d.status.getD p.status, createdAt := d.createdAt.getD p.createdAt }

/-- `Promotion.findByIdAndUpdate(id, doc)` on the collection. -/
def findByIdAndUpdate (id : Nat) (d : UpdateDoc) (db : List Promotion) :
    List Promotion :=
  db.map (fun p => if p.id = id then applyUpdate d p else p)

/-- The update document `{ status }` of the status endpoint. -/
def statusDoc (s : String) : UpdateDoc :=
  { title := none, description := none, start := none, «end» := none,
    color := none, imageUrl := none, status := some s, createdAt := none }

/-- `PUT /api/admin/promotions/:id`: set `status` from the body with no
guard on the current status, then delete the cache key, then respond. -/
def putAdminStatus (id : Nat) (s : String) (db : List Promotion) (c : CacheState) :
    Except String String × List Promotion × CacheState :=
  let db2 := findByIdAndUpdate id (statusDoc s) db
  match cacheDel c with
  | Except.error e => (Except.error e, db2, c)
  | Except.ok c2 => (Except.ok "Status updated", db2, c2)

/-- The allow-listed update document of the `server.js` edit handler:
`{ title, description, start, end, color }` plus `imageUrl` only when a
file was uploaded; `status` and `createdAt` are never part of it. -/
def editDocServer (b : PromoBody) (img : Option String) : UpdateDoc :=
  { title := b.title, description := b.description, start := b.start,
    «end» := b.«end», color := b.color, imageUrl := img,
    status := none, createdAt := none }

/-- `PUT /api/admin/promotions/:id/edit` in `server.js`: optional upload,
allow-listed update, cache delete, success. -/
def putEditServer (id : Nat) (u : UploadCtx) (b : PromoBody)
    (db : List Promotion) (c : CacheState) :
    Except String String × List Promotion × CacheState :=
  match resolveImageOpt u with
  | Except.error e => (Except.error e, db, c)
  | Except.ok img =>
      let db2 := findByIdAndUpdate id (editDocServer b img) db
      match cacheDel c with
      | Except.error e => (Except.error e, db2, c)
      | Except.ok c2 => (Except.ok "Updated successfully", db2, c2)

/-- An arbitrary request body as the `part_001` edit handler forwards it
(`const updateData = { ...req.body }`): any schema field may be present,
including `status` and `createdAt`. -/
structure RawBody where
  title : Option String
  description : Option String
  start : Option Int
  «end» : Option Int
  color : Option String
  imageUrl : Option String
  status : Option String
  createdAt : Option Int
deriving Repr, DecidableEq

/-- The spread update document of `part_001`: every body field goes into
the update; an uploaded file overrides any body `imageUrl`. -/
def spreadDoc (b : RawBody) (img : Option String) : UpdateDoc :=
  { title := b.title, description := b.description, start := b.start,
    «end» := b.«end», color := b.color,
    imageUrl := match img with | some u => some u | none => b.imageUrl,
    status := b.status, createdAt := b.createdAt }

/-- `PUT /api/admin/promotions/:id/edit` in `src/unnamed/part_001`: the
request body is spread verbatim into the update document. -/
def putEditSpread (id : Nat) (u : UploadCtx) (b : RawBody)
    (db : List Promotion) (c : CacheState) :
    Except String String × List Promotion × CacheState :=
  match resolveImageOpt u with
  | Except.error e => (Except.error e, db, c)
  | Except.ok img =>
      let db2 := findByIdAndUpdate id (spreadDoc b img) db
      match cacheDel c with
      | Except.error e => (Except.error e, db2, c)
      | Except.ok c2 => (Except.ok "Updated successfully", db2, c2)

/-- `DELETE /api/admin/promotions/:id`: `findByIdAndDelete`, cache delete,
success. -/
def deleteAdminPromotion (id : Nat) (db : List Promotion) (c : CacheState) :
    Except String String × List Promotion × CacheState :=
  let db2 := db.filter (fun p => p.id != id)
  match cacheDel c with
  | Except.error e => (Except.error e, db2, c)
  | Except.ok c2 => (Except.ok "Deleted successfully", db2, c2)

/-- An Announcement document, Variant A (multi-record; schema in
`src/backend/models/Announcement.js`): `title`, `description`, `imageUrl`,
`startDate`, `endDate`, `isActive`, `createdAt`. -/
structure Announcement where
  id : Nat
  title : String
  description : String
  imageUrl : String
  startDate : Int
  endDate : Int
  isActive : Bool
  createdAt : Int
deriving Repr, DecidableEq

/-- The filter of `GET /api/announcement` in `server.js`. The handler
builds one `Date` value `today = new Date()`; the filter object stores a
reference to it in `startDate: { $lte: today }` and then evaluates
`today.setHours(0,0,0,0)`, which mutates that same `Date` in place before
the query runs. Both bounds are therefore compared against midnight of the
current day, not the un-truncated instant. -/
def annVisible (now : Int) (a : Announcement) : Bool :=
  a.isActive && decide (a.startDate ≤ midnight now)
    && decide (midnight now ≤ a.endDate)

/-- The Announcement visibility predicate as the spec words it (Variant A):
`isActive == true` AND `startDate <= now` (the un-truncated current
instant) AND `endDate >= midnight(today)`. Stated for comparison with
`annVisible`, the predicate the code evaluates. -/
def annVisibleSpec (now : Int) (a : Announcement) : Bool :=
  a.isActive && decide (a.startDate ≤ now) && decide (midnight now ≤ a.endDate)

/-- Insert into a list sorted by `createdAt` descending. -/
def insertByCreatedDesc (a : Announcement) :
    List Announcement → List Announcement
  | [] => [a]
  | b :: rest =>
      if a.createdAt ≤ b.createdAt then b :: insertByCreatedDesc a rest
      else a :: b :: rest

/-- `.sort({ createdAt: -1 })`: newest-created-first ordering. -/
def sortByCreatedDesc (l : List Announcement) : List Announcement :=
  l.foldr insertByCreatedDesc []

/-- `GET /api/announcement` in `server.js` (Variant A): filter by
`annVisible` and return newest-created-first. -/
def getAnnouncementsA (now : Int) (db : List Announcement) :
    List Announcement :=
  sortByCreatedDesc (db.filter (annVisible now))

/-- The announcement fields a creation request body may carry. -/
structure AnnBody where
  title : Option String
  description : Option String
  startDate : Option Int
  endDate : Option Int
deriving Repr, DecidableEq

/-- `new Announcement({...}); await newAnn.save()`: construction plus the
save-path validation (required `title`, `startDate`, `endDate`);
`isActive` is forced to `true` by the handler. -/
def buildAndSaveAnn (fresh : Nat) (now : Int) (b : AnnBody)
    (imageUrl : String) : Except String Announcement :=
  match b.title, b.startDate, b.endDate with
  | some t, some sd, some ed =>
      if t == "" then Except.error "Announcement validation failed: title"
      else
        Except.ok { id := fresh, title := t,
                    description := b.description.getD "",
                    imageUrl := imageUrl, startDate := sd, endDate := ed,
                    isActive := true, createdAt := now }
  | _, _, _ => Except.error "Announcement validation failed"

/-- `POST /api/admin/announcements` in `server.js`: upload the image if
any, then save; no cache interaction. -/
def postAdminAnnouncement (u : UploadCtx) (b : AnnBody) (fresh : Nat)
    (now : Int) (db : List Announcement) :
    Except String String × List Announcement :=
  match resolveImage u with
  | Except.error e => (Except.error e, db)
  | Except.ok url =>
      match buildAndSaveAnn fresh now b url with
      | Except.error e => (Except.error e, db)
      | Except.ok a => (Except.ok "Announcement created successfully", db ++ [a])

/-- Modelled from the spec: the Variant B (singleton) Announcement record.
The `src/` model files only hold the Variant A shapes; the schema the
`part_001` announcement routes read and upsert — fields `title`,
`description`, `imageUrl`, `isActive`, `updatedAt` (refreshed on every
write) — is missing from `src/`, so it is taken from spec §3 Variant B. -/
structure AnnouncementB where
  title : String
  description : String
  imageUrl : String
  isActive : Bool
  updatedAt : Int
deriving Repr, DecidableEq

/-- `Announcement.findOne().sort({ updatedAt: -1 })`: the stored record
with the greatest `updatedAt`, or `none` on an empty collection. -/
def latestAnnouncement : List AnnouncementB → Option AnnouncementB
  | [] => none
  | a :: rest =>
      match latestAnnouncement rest with
      | none => some a
      | some b => if a.updatedAt < b.updatedAt then some b else some a

/-- The response of the Variant B public read: a stored record, or the
default placeholder `{ isActive: false }` when the collection is empty. -/
inductive AnnResponse where
  | record (a : AnnouncementB)
  | inactivePlaceholder
deriving Repr, DecidableEq

/-- The `isActive` flag the client observes on an `AnnResponse`: the
placeholder `{ isActive: false }` carries `false`. -/
def AnnResponse.activeFlag : AnnResponse → Bool
  | record a => a.isActive
  | inactivePlaceholder => false

/-- `GET /api/announcement` in `src/unnamed/part_001` (Variant B):
`await Announcement.findOne().sort({ updatedAt: -1 })`, answering the
found record or `{ isActive: false }` when there is none. -/
def getAnnouncementB (db : List AnnouncementB) : AnnResponse :=
  match latestAnnouncement db with
  | some a => AnnResponse.record a
  | none => AnnResponse.inactivePlaceholder

/-- The update document of `POST /api/admin/announcement` in `part_001`:
`title` and `description` from the body, `isActive` coerced to a boolean,
`imageUrl` only when a file was uploaded; `updatedAt` is always set to the
current instant by the handler. -/
structure AnnUpdateB where
  title : Option String
  description : Option String
  isActive : Bool
  imageUrl : Option String
deriving Repr, DecidableEq

/-- Merge the Variant B update document into a record, refreshing
`updatedAt` to the write instant. -/
def applyAnnUpdate (d : AnnUpdateB) (now : Int) (a : AnnouncementB) :
    AnnouncementB :=
  { title := d.title.getD a.title,
    description := d.description.getD a.description,
    imageUrl := d.imageUrl.getD a.imageUrl,
    isActive := d.isActive, updatedAt := now }

/-- `Announcement.findOneAndUpdate({}, updateData, { upsert: true })`:
update the one matched document, or insert a fresh document from the
update data when the collection is empty (no validators run). -/
def upsertAnnouncementB (d : AnnUpdateB) (now : Int) :
    List AnnouncementB → List AnnouncementB
  | [] => [applyAnnUpdate d now
             { title := "", description := "", imageUrl := "",
               isActive := true, updatedAt := now }]
  | a :: rest => applyAnnUpdate d now a :: rest

/-- `POST /api/admin/announcement` in `src/unnamed/part_001` (Variant B):
build the update document from the body (`title`, `description`,
`isActive` coerced to a boolean, `updatedAt := now`), upload the image
first when a file is present (a failure throws into the catch and aborts
the write), then upsert-by-empty-filter and respond success. -/
def postAdminAnnouncementB (u : UploadCtx) (title description : Option String)
    (isActive : Bool) (now : Int) (db : List AnnouncementB) :
    Except String String × List AnnouncementB :=
  match resolveImageOpt u with
  | Except.error e => (Except.error e, db)
  | Except.ok img =>
      (Except.ok "Announcement updated",
       upsertAnnouncementB
         { title := title, description := description,
           isActive := isActive, imageUrl := img } now db)

/-! Concrete fixtures used by the witness and counterexample instances. -/

/-- A concrete approved promotion: ends ten days after the epoch,
created at instant 100. -/
def pA : Promotion :=
  { id := 1, title := "Sale", description := "ten percent off",
    imageUrl := "", color := "#4F46E5", start := 0, «end» := 864000000,
    status := "APPROVED", createdAt := 100 }

/-- The cache state of a process whose Redis connect failed at start:
the client never opens (`reconnectStrategy: false`). -/
def cacheAbsent : CacheState := { isOpen := false, failing := false, entry := none }

/-- An open, working cache client currently holding a (stale, empty)
cached listing. -/
def cacheOpen : CacheState :=
  { isOpen := true, failing := false, entry := some ([], 300) }

/-- An open client whose calls reject at call time. -/
def cacheFailing : CacheState := { isOpen := true, failing := true, entry := none }

/-- A closed client while the key still holds a value in Redis. -/
def cacheClosedStale : CacheState :=
  { isOpen := false, failing := false, entry := some ([], 300) }

/-- A request with no uploaded file. -/
def uNoFile : UploadCtx := { hasFile := false, uploadOk := true, url := "" }

/-- A request whose uploaded file makes the ImgBB round trip fail. -/
def uBadFile : UploadCtx := { hasFile := true, uploadOk := false, url := "" }

/-- A fully populated, valid promotion body. -/
def bodyFull : PromoBody :=
  { title := some "Sale", description := some "ten percent off",
    start := some 0, «end» := some 864000000, color := none }

/-- A raw body that carries only a `createdAt` field, as a client may send
to the spread-body edit endpoint of `part_001`. -/
def rbCreated : RawBody :=
  { title := none, description := none, start := none, «end» := none,
    color := none, imageUrl := none, status := none, createdAt := some 0 }

/-- A fully populated, valid announcement body. -/
def abFull : AnnBody :=
  { title := some "News", description := some "text",
    startDate := some 0, endDate := some 864000000 }

/-- An active announcement that starts at 06:00 of day 0 and ends five
days later; queried at noon of day 0 it has already started. -/
def annBug : Announcement :=
  { id := 1, title := "Morning", description := "", imageUrl := "",
    startDate := 21600000, endDate := 432000000, isActive := true,
    createdAt := 0 }

/-- A Variant B announcement last updated at instant 5. -/
def annB1 : AnnouncementB :=
  { title := "Old", description := "", imageUrl := "", isActive := true,
    updatedAt := 5 }

/-- A Variant B announcement last updated at instant 9. -/
def annB2 : AnnouncementB :=
  { title := "New", description := "", imageUrl := "", isActive := true,
    updatedAt := 9 }

/-- A Variant B announcement update document. -/
def annUpd : AnnUpdateB :=
  { title := some "Hi", description := none, isActive := true, imageUrl := none }

/-- Outputs of four concrete successful administrative writes against
`[pA]` with an open, populated cache, used by the invalidation witness. -/
def dbA0 : List Promotion := (putAdminStatus 1 "REJECTED" [pA] cacheOpen).2.1

/-- Cache state after the concrete status update. -/
def cA0 : CacheState := (putAdminStatus 1 "REJECTED" [pA] cacheOpen).2.2

/-- Store after the concrete admin create. -/
def dbB0 : List Promotion :=
  (postAdminPromotion uNoFile bodyFull 2 50 [pA] cacheOpen).2.1

/-- Cache state after the concrete admin create. -/
def cB0 : CacheState := (postAdminPromotion uNoFile bodyFull 2 50 [pA] cacheOpen).2.2

/-- Store after the concrete edit. -/
def dbC0 : List Promotion := (putEditServer 1 uNoFile bodyFull [pA] cacheOpen).2.1

/-- Cache state after the concrete edit. -/
def cC0 : CacheState := (putEditServer 1 uNoFile bodyFull [pA] cacheOpen).2.2

/-- Store after the concrete delete. -/
def dbD0 : List Promotion := (deleteAdminPromotion 1 [pA] cacheOpen).2.1

/-- Cache state after the concrete delete. -/
def cD0 : CacheState := (deleteAdminPromotion 1 [pA] cacheOpen).2.2

/-- C1: on a public listing that reaches the store (cache miss, or cache
unavailable), a stored Promotion is returned iff its status is `APPROVED`
and its end date is at or after midnight of the current day; `start` plays
no role, so an approved promotion whose `start` lies in the future is
still returned. -/
theorem getPromotions_visibility (now : Int) (db : List Promotion)
    (p : Promotion) (hp : p ∈ db) :
    (getPromotions now db { isOpen := true, failing := false, entry := none }).1
      = Except.ok (visiblePromotions now db) ∧
    (getPromotions now db cacheAbsent).1 = Except.ok (visiblePromotions now db) ∧
    (p ∈ visiblePromotions now db ↔
      p.status = "APPROVED" ∧ midnight now ≤ p.«end») ∧
    (∀ s : Int, promoVisible now { p with start := s } = promoVisible now p) := by
  refine ⟨rfl, rfl, ?_, fun s => rfl⟩
  simp [visiblePromotions, List.mem_filter, hp, promoVisible]

/-- C1 witness: the concrete approved promotion `pA` is in the visible set
at instant 0 exactly because its status is `APPROVED` and its end is after
midnight. -/
theorem getPromotions_visibility_witness :
    pA ∈ visiblePromotions 0 [pA] ↔
      pA.status = "APPROVED" ∧ midnight 0 ≤ pA.«end» :=
  (getPromotions_visibility 0 [pA] pA (List.mem_singleton.mpr rfl)).2.2.1

/-- C4: with an open, working cache, `GET /promotions` on a hit returns
the cached set verbatim — for every store content, so the store is not
consulted — and leaves the state unchanged; on a miss it recomputes the
visible set from the store, installs it under the key with TTL 300, and
returns that same result. -/
theorem getPromotions_cache_hit_miss (now : Int) (db v : List Promotion)
    (ttl : Nat) :
    getPromotions now db { isOpen := true, failing := false, entry := some (v, ttl) }
      = (Except.ok v,
         { isOpen := true, failing := false, entry := some (v, ttl) }) ∧
    getPromotions now db { isOpen := true, failing := false, entry := none }
      = (Except.ok (visiblePromotions now db),
         { isOpen := true, failing := false,
           entry := some (visiblePromotions now db, 300) }) :=
  ⟨rfl, rfl⟩

/-- C5 counterexample: a cache call that rejects while the client reports
open is caught by the handler's try/catch and fails the request (500),
even though the same request succeeds with no cache configured. -/
theorem cache_call_failure_yields_error :
    (getPromotions 0 [pA] cacheFailing).1 = Except.error "cache error" ∧
    (getPromotions 0 [pA] cacheAbsent).1 = Except.ok (visiblePromotions 0 [pA]) ∧
    visiblePromotions 0 [pA] = [pA] :=
  ⟨rfl, rfl, rfl⟩

/-- C5 amended: when the cache client is not open (unreachable at process
start, or the connection has dropped), every read and write degrades to
direct store access — each handler returns exactly what it returns with no
cache configured, the read succeeds with the visible set, and the
no-failure-mode writes succeed. -/
theorem cache_closed_degrades (now : Int) (db : List Promotion)
    (c : CacheState) (id fresh : Nat) (s : String) (u : UploadCtx)
    (b : PromoBody) (rb : RawBody) (h : c.isOpen = false) :
    getPromotions now db c = (Except.ok (visiblePromotions now db), c) ∧
    (putAdminStatus id s db c).1 = (putAdminStatus id s db cacheAbsent).1 ∧
    (putAdminStatus id s db c).2.1 = (putAdminStatus id s db cacheAbsent).2.1 ∧
    (putAdminStatus id s db c).1 = Except.ok "Status updated" ∧
    (postAdminPromotion u b fresh now db c).1
      = (postAdminPromotion u b fresh now db cacheAbsent).1 ∧
    (postAdminPromotion u b fresh now db c).2.1
      = (postAdminPromotion u b fresh now db cacheAbsent).2.1 ∧
    (putEditServer id u b db c).1 = (putEditServer id u b db cacheAbsent).1 ∧
    (putEditServer id u b db c).2.1 = (putEditServer id u b db cacheAbsent).2.1 ∧
    (putEditSpread id u rb db c).1 = (putEditSpread id u rb db cacheAbsent).1 ∧
    (putEditSpread id u rb db c).2.1 = (putEditSpread id u rb db cacheAbsent).2.1 ∧
    (deleteAdminPromotion id db c).1 = Except.ok "Deleted successfully" ∧
    (deleteAdminPromotion id db c).2.1
      = (deleteAdminPromotion id db cacheAbsent).2.1 := by
  refine ⟨?_, ?_, ?_, ?_, ?_, ?_, ?_, ?_, ?_, ?_, ?_, ?_⟩
  · simp [getPromotions, h]
  · simp [putAdminStatus, cacheDel, cacheAbsent, h]
  · simp [putAdminStatus, cacheDel, cacheAbsent, h]
  · simp [putAdminStatus, cacheDel, h]
  · cases hri : resolveImage u with
    | error e => simp [postAdminPromotion, hri]
    | ok url =>
        cases hbs : buildAndSave fresh now b url (b.color.getD "#4F46E5") "APPROVED" with
        | error e => simp [postAdminPromotion, hri, hbs]
        | ok p => simp [postAdminPromotion, hri, hbs, cacheDel, cacheAbsent, h]
  · cases hri : resolveImage u with
    | error e => simp [postAdminPromotion, hri]
    | ok url =>
        cases hbs : buildAndSave fresh now b url (b.color.getD "#4F46E5") "APPROVED" with
        | error e => simp [postAdminPromotion, hri, hbs]
        | ok p => simp [postAdminPromotion, hri, hbs, cacheDel, cacheAbsent, h]
  · cases hri : resolveImageOpt u with
    | error e => simp [putEditServer, hri]
    | ok img => simp [putEditServer, hri, cacheDel, cacheAbsent, h]
  · cases hri : resolveImageOpt u with
    | error e => simp [putEditServer, hri]
    | ok img => simp [putEditServer, hri, cacheDel, cacheAbsent, h]
  · cases hri : resolveImageOpt u with
    | error e => simp [putEditSpread, hri]
    | ok img => simp [putEditSpread, hri, cacheDel, cacheAbsent, h]
  · cases hri : resolveImageOpt u with
    | error e => simp [putEditSpread, hri]
    | ok img => simp [putEditSpread, hri, cacheDel, cacheAbsent, h]
  · simp [deleteAdminPromotion, cacheDel, h]
  · simp [deleteAdminPromotion, cacheDel, cacheAbsent, h]

/-- C5 amended witness: with the client closed (even while the Redis key
still holds a stale value), the public read succeeds directly against the
store. -/
theorem cache_closed_degrades_witness :
    getPromotions 0 [pA] cacheClosedStale
      = (Except.ok (visiblePromotions 0 [pA]), cacheClosedStale) :=
  (cache_closed_degrades 0 [pA] cacheClosedStale 1 2 "REJECTED" uNoFile
    bodyFull rbCreated rfl).1

/-- C6: on every promotion or announcement create or edit that carries an
image, a failed Image Relay round trip aborts the write entirely: the
handler returns the upload error and both the record collections and the
cache are exactly as before. -/
theorem upload_failure_aborts_write (u : UploadCtx) (b : PromoBody)
    (rb : RawBody) (ab : AnnBody) (tb dscb : Option String) (act : Bool)
    (fresh id : Nat) (now : Int) (db : List Promotion)
    (adb : List Announcement) (bdb : List AnnouncementB) (c : CacheState)
    (hfile : u.hasFile = true) (hfail : u.uploadOk = false) :
    postPromotion u b fresh now db = (Except.error "Image upload failed", db) ∧
    postAdminPromotion u b fresh now db c
      = (Except.error "Image upload failed", db, c) ∧
    putEditServer id u b db c = (Except.error "Image upload failed", db, c) ∧
    putEditSpread id u rb db c = (Except.error "Image upload failed", db, c) ∧
    postAdminAnnouncement u ab fresh now adb
      = (Except.error "Image upload failed", adb) ∧
    postAdminAnnouncementB u tb dscb act now bdb
      = (Except.error "Image upload failed", bdb) := by
  have h1 : resolveImage u = Except.error "Image upload failed" := by
    simp [resolveImage, hfile, hfail]
  have h2 : resolveImageOpt u = Except.error "Image upload failed" := by
    simp [resolveImageOpt, hfile, hfail]
  exact ⟨by simp [postPromotion, h1], by simp [postAdminPromotion, h1],
         by simp [putEditServer, h2], by simp [putEditSpread, h2],
         by simp [postAdminAnnouncement, h1],
         by simp [postAdminAnnouncementB, h2]⟩

/-- C6 witness: a concrete failed upload leaves the one-record store
untouched and yields the upload error. -/
theorem upload_failure_aborts_write_witness :
    postPromotion uBadFile bodyFull 2 50 [pA]
      = (Except.error "Image upload failed", [pA]) :=
  (upload_failure_aborts_write uBadFile bodyFull rbCreated abFull
    (some "Hi") none true 2 1 50 [pA] [] [] cacheOpen rfl rfl).1

/-- A successful cache delete leaves the key empty whenever the client was
open. -/
theorem cacheDel_entry {c c2 : CacheState} (h : cacheDel c = Except.ok c2) :
    c.isOpen = true → c2.entry = none := by
  intro ho
  cases hf : c.failing
  · simp [cacheDel, ho, hf] at h
    rw [← h]
  · simp [cacheDel, ho, hf] at h

/-- After a successful cache delete, the next public read recomputes the
visible set from the store (the key is empty, or the client is closed and
the cache is skipped). -/
theorem getPromotions_after_del {c c2 : CacheState}
    (h : cacheDel c = Except.ok c2) (t : Int) (db : List Promotion) :
    (getPromotions t db c2).1 = Except.ok (visiblePromotions t db) := by
  rcases c with ⟨o, f, e⟩
  cases o <;> cases f <;> simp [cacheDel] at h <;> simp [getPromotions, ← h]

/-- A successful status update implies its cache delete succeeded and
produced its final cache state. -/
theorem putAdminStatus_ok_cacheDel {id : Nat} {s : String}
    {db : List Promotion} {c : CacheState} {m : String}
    {dbr : List Promotion} {cr : CacheState}
    (h : putAdminStatus id s db c = (Except.ok m, dbr, cr)) :
    cacheDel c = Except.ok cr := by
  unfold putAdminStatus at h
  cases hcd : cacheDel c with
  | error e => rw [hcd] at h; simp at h
  | ok c0 => rw [hcd] at h; simp at h; exact congrArg Except.ok h.2.2

/-- A successful admin create implies its cache delete succeeded and
produced its final cache state. -/
theorem postAdminPromotion_ok_cacheDel {u : UploadCtx} {b : PromoBody}
    {fresh : Nat} {now : Int} {db : List Promotion} {c : CacheState}
    {m : String} {dbr : List Promotion} {cr : CacheState}
    (h : postAdminPromotion u b fresh now db c = (Except.ok m, dbr, cr)) :
    cacheDel c = Except.ok cr := by
  unfold postAdminPromotion at h
  cases hcd : cacheDel c with
  | error e =>
      cases hri : resolveImage u with
      | error e2 => simp [hri] at h
      | ok url =>
          cases hbs : buildAndSave fresh now b url (b.color.getD "#4F46E5") "APPROVED" with
          | error e2 => simp [hri, hbs] at h
          | ok p => simp [hri, hbs, hcd] at h
  | ok c0 =>
      cases hri : resolveImage u with
      | error e2 => simp [hri] at h
      | ok url =>
          cases hbs : buildAndSave fresh now b url (b.color.getD "#4F46E5") "APPROVED" with
          | error e2 => simp [hri, hbs] at h
          | ok p => simp [hri, hbs, hcd] at h; exact congrArg Except.ok h.2.2

/-- A successful edit implies its cache delete succeeded and produced its
final cache state. -/
theorem putEditServer_ok_cacheDel {id : Nat} {u : UploadCtx} {b : PromoBody}
    {db : List Promotion} {c : CacheState} {m : String}
    {dbr : List Promotion} {cr : CacheState}
    (h : putEditServer id u b db c = (Except.ok m, dbr, cr)) :
    cacheDel c = Except.ok cr := by
  unfold putEditServer at h
  cases hcd : cacheDel c with
  | error e =>
      cases hri : resolveImageOpt u with
      | error e2 => simp [hri] at h
      | ok img => simp [hri, hcd] at h
  | ok c0 =>
      cases hri : resolveImageOpt u with
      | error e2 => simp [hri] at h
      | ok img => simp [hri, hcd] at h; exact congrArg Except.ok h.2.2

/-- A successful delete implies its cache delete succeeded and produced
its final cache state. -/
theorem deleteAdminPromotion_ok_cacheDel {id : Nat} {db : List Promotion}
    {c : CacheState} {m : String} {dbr : List Promotion} {cr : CacheState}
    (h : deleteAdminPromotion id db c = (Except.ok m, dbr, cr)) :
    cacheDel c = Except.ok cr := by
  unfold deleteAdminPromotion at h
  cases hcd : cacheDel c with
  | error e => rw [hcd] at h; simp at h
  | ok c0 => rw [hcd] at h; simp at h; exact congrArg Except.ok h.2.2

/-- C3: whenever any of the four administrative promotion writes — status
change, create, edit, delete — responds success, the promotion cache key
has been deleted before that response (empty final entry whenever the
client was open), so the next public read recomputes the visible set from
the record store. -/
theorem adminWrites_invalidate_cache (id fresh : Nat) (s : String)
    (u : UploadCtx) (b : PromoBody) (now t : Int)
    (db dbA dbB dbC dbD : List Promotion) (c cA cB cC cD : CacheState)
    (mA mB mC mD : String)
    (hA : putAdminStatus id s db c = (Except.ok mA, dbA, cA))
    (hB : postAdminPromotion u b fresh now db c = (Except.ok mB, dbB, cB))
    (hC : putEditServer id u b db c = (Except.ok mC, dbC, cC))
    (hD : deleteAdminPromotion id db c = (Except.ok mD, dbD, cD)) :
    (c.isOpen = true → cA.entry = none) ∧
    (c.isOpen = true → cB.entry = none) ∧
    (c.isOpen = true → cC.entry = none) ∧
    (c.isOpen = true → cD.entry = none) ∧
    (getPromotions t dbA cA).1 = Except.ok (visiblePromotions t dbA) ∧
    (getPromotions t dbB cB).1 = Except.ok (visiblePromotions t dbB) ∧
    (getPromotions t dbC cC).1 = Except.ok (visiblePromotions t dbC) ∧
    (getPromotions t dbD cD).1 = Except.ok (visiblePromotions t dbD) := by
  have dA := putAdminStatus_ok_cacheDel hA
  have dB := postAdminPromotion_ok_cacheDel hB
  have dC := putEditServer_ok_cacheDel hC
  have dD := deleteAdminPromotion_ok_cacheDel hD
  exact ⟨cacheDel_entry dA, cacheDel_entry dB, cacheDel_entry dC,
         cacheDel_entry dD, getPromotions_after_del dA t dbA,
         getPromotions_after_del dB t dbB, getPromotions_after_del dC t dbC,
         getPromotions_after_del dD t dbD⟩

/-- C3 witness: after the concrete successful status update against an
open, populated cache, the key is empty and the next public read
recomputes from the store. -/
theorem adminWrites_invalidate_cache_witness :
    cA0.entry = none ∧
    (getPromotions 0 dbA0 cA0).1 = Except.ok (visiblePromotions 0 dbA0) := by
  have T := adminWrites_invalidate_cache 1 2 "REJECTED" uNoFile bodyFull 50 0
    [pA] dbA0 dbB0 dbC0 dbD0 cacheOpen cA0 cB0 cC0 cD0
    "Status updated" "Created successfully" "Updated successfully"
    "Deleted successfully" rfl rfl rfl rfl
  exact ⟨T.1 rfl, T.2.2.2.2.1⟩

/-- C7: the status endpoint accepts each of the three enumerated values
unconditionally — success does not depend on the record's current status —
and its update document touches only `status`: title, description, start,
end, color, imageUrl and createdAt of the targeted record are unchanged. -/
theorem putStatus_unconditional_frame (id : Nat) (s : String)
    (db : List Promotion) (c : CacheState) (p : Promotion)
    (_hs : s = "PENDING" ∨ s = "APPROVED" ∨ s = "REJECTED")
    (hp : p ∈ db) (hid : p.id = id) (hc : c.failing = false) :
    (putAdminStatus id s db c).1 = Except.ok "Status updated" ∧
    applyUpdate (statusDoc s) p ∈ (putAdminStatus id s db c).2.1 ∧
    (applyUpdate (statusDoc s) p).status = s ∧
    (applyUpdate (statusDoc s) p).title = p.title ∧
    (applyUpdate (statusDoc s) p).description = p.description ∧
    (applyUpdate (statusDoc s) p).start = p.start ∧
    (applyUpdate (statusDoc s) p).«end» = p.«end» ∧
    (applyUpdate (statusDoc s) p).color = p.color ∧
    (applyUpdate (statusDoc s) p).imageUrl = p.imageUrl ∧
    (applyUpdate (statusDoc s) p).createdAt = p.createdAt := by
  have hdb : (putAdminStatus id s db c).2.1 = findByIdAndUpdate id (statusDoc s) db := by
    cases ho : c.isOpen <;> simp [putAdminStatus, cacheDel, ho, hc]
  refine ⟨?_, ?_, rfl, rfl, rfl, rfl, rfl, rfl, rfl, rfl⟩
  · cases ho : c.isOpen <;> simp [putAdminStatus, cacheDel, ho, hc]
  · rw [hdb]
    have hm := List.mem_map_of_mem
      (fun q => if q.id = id then applyUpdate (statusDoc s) q else q) hp
    simpa [findByIdAndUpdate, hid] using hm

/-- C7 witness: `REJECTED` is accepted on a record whose current status is
`APPROVED`, and the record's title is untouched. -/
theorem putStatus_unconditional_frame_witness :
    (putAdminStatus 1 "REJECTED" [pA] cacheAbsent).1 = Except.ok "Status updated" ∧
    applyUpdate (statusDoc "REJECTED") pA
      ∈ (putAdminStatus 1 "REJECTED" [pA] cacheAbsent).2.1 ∧
    (applyUpdate (statusDoc "REJECTED") pA).title = pA.title := by
  have T := putStatus_unconditional_frame 1 "REJECTED" [pA] cacheAbsent pA
    (Or.inr (Or.inr rfl)) (List.mem_singleton.mpr rfl) rfl rfl
  exact ⟨T.1, T.2.1, T.2.2.2.1⟩

/-- An update by a document that carries no `createdAt` preserves every
record's `createdAt`. -/
theorem map_createdAt_update {d : UpdateDoc} (hd : d.createdAt = none)
    (id : Nat) (db : List Promotion) :
    (findByIdAndUpdate id d db).map (fun p => p.createdAt)
      = db.map (fun p => p.createdAt) := by
  induction db with
  | nil => rfl
  | cons x xs ih =>
      simp only [findByIdAndUpdate, List.map_cons] at ih ⊢
      refine congrArg₂ List.cons ?_ ih
      split <;> simp [applyUpdate, hd]

/-- C8 amended: the status endpoint and the allow-listed `server.js` edit
endpoint never change any record's `createdAt`, whatever the request body
holds, since their update documents never carry `createdAt`. -/
theorem allowlist_writes_preserve_createdAt (id : Nat) (s : String)
    (u : UploadCtx) (b : PromoBody) (db : List Promotion) (c : CacheState) :
    ((putAdminStatus id s db c).2.1).map (fun p => p.createdAt)
      = db.map (fun p => p.createdAt) ∧
    ((putEditServer id u b db c).2.1).map (fun p => p.createdAt)
      = db.map (fun p => p.createdAt) := by
  constructor
  · have hdb : (putAdminStatus id s db c).2.1
        = findByIdAndUpdate id (statusDoc s) db := by
      cases hcd : cacheDel c <;> simp [putAdminStatus, hcd]
    rw [hdb]
    exact map_createdAt_update rfl id db
  · cases hri : resolveImageOpt u with
    | error e => simp [putEditServer, hri]
    | ok img =>
        have hdb : (putEditServer id u b db c).2.1
            = findByIdAndUpdate id (editDocServer b img) db := by
          cases hcd : cacheDel c <;> simp [putEditServer, hri, hcd]
        rw [hdb]
        exact map_createdAt_update rfl id db

/-- C8 counterexample: in the `part_001` revision the edit endpoint
spreads the request body into the update document, so an edit whose body
carries `createdAt: 0` succeeds and overwrites the stored `createdAt`
(100 on `pA`). -/
theorem spread_edit_mutates_createdAt :
    (putEditSpread 1 uNoFile rbCreated [pA] cacheAbsent).1
      = Except.ok "Updated successfully" ∧
    ((putEditSpread 1 uNoFile rbCreated [pA] cacheAbsent).2.1).map
        (fun p => p.createdAt) = [0] ∧
    pA.createdAt = 100 :=
  ⟨rfl, rfl, rfl⟩

/-- C10: the status endpoint persists an arbitrary string as `status` on
an existing record — the schema's enum is not checked on the
`findByIdAndUpdate` path — while the save path (document creation) does
enforce the enum. -/
theorem status_enum_unenforced_on_update (id : Nat) (s : String)
    (db : List Promotion) (c : CacheState) (p : Promotion)
    (hp : p ∈ db) (hid : p.id = id) (hc : c.failing = false) :
    (putAdminStatus id s db c).1 = Except.ok "Status updated" ∧
    applyUpdate (statusDoc s) p ∈ (putAdminStatus id s db c).2.1 ∧
    (applyUpdate (statusDoc s) p).status = s ∧
    (∀ fresh now b url color q,
        buildAndSave fresh now b url color s = Except.ok q →
          validStatus s = true) := by
  have hdb : (putAdminStatus id s db c).2.1
      = findByIdAndUpdate id (statusDoc s) db := by
    cases ho : c.isOpen <;> simp [putAdminStatus, cacheDel, ho, hc]
  refine ⟨?_, ?_, rfl, ?_⟩
  · cases ho : c.isOpen <;> simp [putAdminStatus, cacheDel, ho, hc]
  · rw [hdb]
    have hm := List.mem_map_of_mem
      (fun q => if q.id = id then applyUpdate (statusDoc s) q else q) hp
    simpa [findByIdAndUpdate, hid] using hm
  · intro fresh now b url color q hq
    by_cases hv : validStatus s = true
    · exact hv
    · exfalso
      cases ht : b.title with
      | none => simp [buildAndSave, ht] at hq
      | some t =>
          cases hst : b.start with
          | none => simp [buildAndSave, ht, hst] at hq
          | some st =>
              cases hen : b.«end» with
              | none => simp [buildAndSave, ht, hst, hen] at hq
              | some en =>
                  simp [buildAndSave, ht, hst, hen, hv] at hq
                  split at hq <;> simp at hq

/-- C10 witness: `SUPERAPPROVED`, outside the enum, is persisted by the
status endpoint on the concrete record `pA`. -/
theorem status_enum_unenforced_on_update_witness :
    (putAdminStatus 1 "SUPERAPPROVED" [pA] cacheAbsent).1
      = Except.ok "Status updated" ∧
    applyUpdate (statusDoc "SUPERAPPROVED") pA
      ∈ (putAdminStatus 1 "SUPERAPPROVED" [pA] cacheAbsent).2.1 ∧
    (applyUpdate (statusDoc "SUPERAPPROVED") pA).status = "SUPERAPPROVED" := by
  have T := status_enum_unenforced_on_update 1 "SUPERAPPROVED" [pA]
    cacheAbsent pA (List.mem_singleton.mpr rfl) rfl rfl
  exact ⟨T.1, T.2.1, T.2.2.1⟩

/-- C2 (code bug): at noon of day 0 an active announcement that started at
06:00 the same day satisfies the spec's predicate (`startDate <= now`,
both other bounds met) but is excluded by the code, because the mutation
of the shared `today` Date by `setHours(0,0,0,0)` makes the query compare
`startDate` against midnight instead of the current instant. -/
theorem announcement_start_bound_bug :
    annVisibleSpec 43200000 annBug = true ∧
    annVisible 43200000 annBug = false ∧
    getAnnouncementsA 43200000 [annBug] = [] ∧
    annBug.isActive = true ∧
    annBug.startDate ≤ 43200000 ∧
    midnight 43200000 ≤ annBug.endDate := by
  decide

/-- `findOne` with a sort yields nothing only on an empty collection. -/
theorem latestAnnouncement_eq_none {l : List AnnouncementB}
    (h : latestAnnouncement l = none) : l = [] := by
  cases l with
  | nil => rfl
  | cons x xs =>
      exfalso
      simp only [latestAnnouncement] at h
      cases hr : latestAnnouncement xs with
      | none => rw [hr] at h; simp at h
      | some b =>
          rw [hr] at h
          have h2 : (if x.updatedAt < b.updatedAt then some b else some x)
              = none := h
          split at h2 <;> simp at h2

/-- The record `findOne().sort({ updatedAt: -1 })` returns is stored. -/
theorem latestAnnouncement_mem :
    ∀ {db : List AnnouncementB} {a : AnnouncementB},
      latestAnnouncement db = some a → a ∈ db := by
  intro db
  induction db with
  | nil => intro a h; simp [latestAnnouncement] at h
  | cons x xs ih =>
      intro a h
      simp only [latestAnnouncement] at h
      cases hr : latestAnnouncement xs with
      | none =>
          rw [hr] at h
          exact (Option.some.inj h) ▸ List.mem_cons_self x xs
      | some b =>
          rw [hr] at h
          have h2 : (if x.updatedAt < b.updatedAt then some b else some x)
              = some a := h
          by_cases hlt : x.updatedAt < b.updatedAt
          · rw [if_pos hlt] at h2
            exact (Option.some.inj h2) ▸ List.mem_cons_of_mem x (ih hr)
          · rw [if_neg hlt] at h2
            exact (Option.some.inj h2) ▸ List.mem_cons_self x xs

/-- The record `findOne().sort({ updatedAt: -1 })` returns has the
greatest `updatedAt` of the collection. -/
theorem latestAnnouncement_max :
    ∀ {db : List AnnouncementB} {a : AnnouncementB},
      latestAnnouncement db = some a →
        ∀ y ∈ db, y.updatedAt ≤ a.updatedAt := by
  intro db
  induction db with
  | nil => intro a h; simp [latestAnnouncement] at h
  | cons x xs ih =>
      intro a h y hy
      simp only [latestAnnouncement] at h
      cases hr : latestAnnouncement xs with
      | none =>
          rw [hr] at h
          have hxs : xs = [] := latestAnnouncement_eq_none hr
          subst hxs
          have hxa : x = a := Option.some.inj h
          subst hxa
          have : y = x := by simpa using hy
          subst this
          exact le_refl _
      | some b =>
          rw [hr] at h
          have h2 : (if x.updatedAt < b.updatedAt then some b else some x)
              = some a := h
          rcases List.mem_cons.mp hy with hyx | hyxs
          · subst hyx
            by_cases hlt : y.updatedAt < b.updatedAt
            · rw [if_pos hlt] at h2
              exact (Option.some.inj h2) ▸ le_of_lt hlt
            · rw [if_neg hlt] at h2
              exact (Option.some.inj h2) ▸ le_refl _
          · by_cases hlt : x.updatedAt < b.updatedAt
            · rw [if_pos hlt] at h2
              exact (Option.some.inj h2) ▸ ih hr y hyxs
            · rw [if_neg hlt] at h2
              have hba : b.updatedAt ≤ x.updatedAt := le_of_not_lt hlt
              exact (Option.some.inj h2) ▸ le_trans (ih hr y hyxs) hba

/-- C9: in the Variant B singleton design, the public read returns the
stored record with the greatest `updatedAt` — which every write refreshes,
since the upsert-by-empty-filter always stamps the written record with the
current instant — and returns the inactive placeholder exactly on an empty
collection. -/
theorem announcementB_singleton_read (db : List AnnouncementB)
    (d : AnnUpdateB) (now : Int) (a : AnnouncementB)
    (h : latestAnnouncement db = some a) :
    getAnnouncementB db = AnnResponse.record a ∧
    a ∈ db ∧
    (∀ b ∈ db, b.updatedAt ≤ a.updatedAt) ∧
    getAnnouncementB [] = AnnResponse.inactivePlaceholder ∧
    AnnResponse.activeFlag AnnResponse.inactivePlaceholder = false ∧
    (∃ hd, (upsertAnnouncementB d now db).head? = some hd ∧
      hd.updatedAt = now) := by
  refine ⟨by simp [getAnnouncementB, h], latestAnnouncement_mem h,
    latestAnnouncement_max h, rfl, rfl, ?_⟩
  cases db with
  | nil => exact ⟨_, rfl, rfl⟩
  | cons x xs => exact ⟨_, rfl, rfl⟩

/-- C9 witness: on a two-record collection the public read returns the
record with the greater `updatedAt`. -/
theorem announcementB_singleton_read_witness :
    getAnnouncementB [annB1, annB2] = AnnResponse.record annB2 ∧
    annB2 ∈ [annB1, annB2] := by
  have T := announcementB_singleton_read [annB1, annB2] annUpd 7 annB2 (by decide)
  exact ⟨T.1, T.2.1⟩

end PromoCalendar
